import Mathlib

/-
Formal model of the GTI stock-analysis service core, translated from the
Python sources: cache_manager.py (GTICacheManager), rate_limiter.py
(GTIRateLimiter, rate_limited_call), lay_data_stock.py (market_scan_parallel,
_process_stock_chunk) and task_manager.py (TaskManager).

Modelling conventions:
- Wall-clock instants (time.time(), datetime.now()) are naturals counting
  seconds; sleeping has no observable effect on the state studied here.
- Python dicts are association lists with insertion order; an insert of an
  existing key replaces the stored value in place, a fresh key is appended.
- Cache values and scan payloads are opaque to every operation modelled here
  and are represented by naturals; parameter values of cache keys likewise.
- Exceptions are represented with Except; a raised exception is an
  Except.error carrying the message string.
- Float delays of the rate limiter are represented by rationals; the decay
  factor 0.8 is the exact rational 4/5.  The clamping structure (min / max)
  is unchanged by this choice.
-/

/-- Lookup in an association list, first binding wins (Python dict lookup). -/
def dictLookup {κ α : Type} [DecidableEq κ] (k : κ) : List (κ × α) → Option α
  | [] => none
  | kv :: rest => if kv.1 = k then some kv.2 else dictLookup k rest

/-- Replace the value stored under a key, keeping its position
(Python dict assignment to an existing key). -/
def dictUpdate {κ α : Type} [DecidableEq κ] (k : κ) (v : α) (l : List (κ × α)) :
    List (κ × α) :=
  l.map (fun kv => if kv.1 = k then (k, v) else kv)

/-- Key membership test of an association list. -/
def dictContains {κ α : Type} [DecidableEq κ] (k : κ) (l : List (κ × α)) : Bool :=
  l.any (fun kv => kv.1 = k)

/-- Python dict assignment: replace in place if the key exists, else append. -/
def dictInsert {κ α : Type} [DecidableEq κ] (k : κ) (v : α) (l : List (κ × α)) :
    List (κ × α) :=
  if dictContains k l then dictUpdate k v l else l ++ [(k, v)]

/-- Python del on a dict key (removes the binding when present). -/
def dictErase {κ α : Type} [DecidableEq κ] (k : κ) (l : List (κ × α)) :
    List (κ × α) :=
  l.filter (fun kv => !(decide (kv.1 = k)))

namespace GTIConfig

/-- config.py: ENABLE_CACHE = True. -/
def ENABLE_CACHE : Bool := true

/-- config.py: CACHE_EXPIRY_MINUTES = 5. -/
def CACHE_EXPIRY_MINUTES : ℕ := 5

/-- config.py: CHUNK_SIZE_FOR_LARGE_SCANS = 20. -/
def CHUNK_SIZE_FOR_LARGE_SCANS : ℕ := 20

end GTIConfig

/-- One cache entry, as stored by GTICacheManager.set. -/
structure CacheEntry where
  data : ℕ
  created_at : ℕ
  expires_at : ℕ
  last_accessed : ℕ
  hits : ℕ
  operation : String
  params : List (String × ℕ)
deriving DecidableEq

/-- The cache key type.  The source derives the key as a truncated md5 hex
digest of the operation name together with the json dump of the sorted
parameter items; the digest is a function of that canonical form, so the
model keeps the canonical form itself: the operation name paired with the
parameter items in sorted order. -/
abbrev CacheKey : Type := String × List (String × ℕ)

/-- The in-memory cache of GTICacheManager (self.cache). -/
abbrev Cache : Type := List (CacheKey × CacheEntry)

/-- Ordering used by sorted(kwargs.items()): Python compares the
(name, value) tuples lexicographically; parameter names of one call are
distinct, so ties on names never reach the values in the source. -/
def paramLE (p q : String × ℕ) : Prop :=
  p.1 < q.1 ∨ (p.1 = q.1 ∧ p.2 ≤ q.2)

instance : DecidableRel paramLE := fun p q => by
  unfold paramLE; infer_instance

instance : IsTotal (String × ℕ) paramLE := by
  constructor
  intro p q
  rcases lt_trichotomy p.1 q.1 with h | h | h
  · exact Or.inl (Or.inl h)
  · rcases Nat.le_total p.2 q.2 with h2 | h2
    · exact Or.inl (Or.inr ⟨h, h2⟩)
    · exact Or.inr (Or.inr ⟨h.symm, h2⟩)
  · exact Or.inr (Or.inl h)

instance : IsTrans (String × ℕ) paramLE := by
  constructor
  intro p q r hpq hqr
  rcases hpq with h1 | ⟨h1, h1v⟩
  · rcases hqr with h2 | ⟨h2, _⟩
    · exact Or.inl (h1.trans h2)
    · exact Or.inl (h2 ▸ h1)
  · rcases hqr with h2 | ⟨h2, h2v⟩
    · exact Or.inl (h1 ▸ h2)
    · exact Or.inr ⟨h1.trans h2, h1v.trans h2v⟩

instance : IsAntisymm (String × ℕ) paramLE := by
  constructor
  intro p q hpq hqp
  rcases hpq with h1 | ⟨h1, h1v⟩
  · rcases hqp with h2 | ⟨h2, _⟩
    · exact absurd h2 (not_lt.mpr h1.le)
    · exact absurd h1 (h2 ▸ lt_irrefl _)
  · rcases hqp with h2 | ⟨h2, h2v⟩
    · exact absurd h2 (h1 ▸ lt_irrefl _)
    · exact Prod.ext h1 (Nat.le_antisymm h1v h2v)

namespace GTICacheManager

/-- cache_manager.py, GTICacheManager._generate_cache_key: sorts the keyword
arguments and derives the key from the operation name plus the canonical
serialization of the sorted items.  The md5 truncation of the source is a
function of this canonical pair, so equal pairs give equal source keys. -/
def _generate_cache_key (operation : String) (params : List (String × ℕ)) :
    CacheKey :=
  (operation, List.insertionSort paramLE params)

/-- cache_manager.py: self.default_expiry = CACHE_EXPIRY_MINUTES * 60. -/
def default_expiry : ℕ := GTIConfig.CACHE_EXPIRY_MINUTES * 60

/-- cache_manager.py, GTICacheManager.get: returns the stored data when the
entry exists and now is strictly before expires_at, bumping the hit counter
and last_accessed; deletes the entry and misses when it has expired; misses
when absent.  Returns the read value together with the cache afterwards. -/
def get (enabled : Bool) (now : ℕ) (operation : String)
    (params : List (String × ℕ)) (cache : Cache) : Option ℕ × Cache :=
  if enabled then
    let k := _generate_cache_key operation params
    match dictLookup k cache with
    | some e =>
        if now < e.expires_at then
          (some e.data,
           dictUpdate k { e with hits := e.hits + 1, last_accessed := now } cache)
        else
          (none, dictErase k cache)
    | none => (none, cache)
  else (none, cache)

/-- Ordering used by the eviction pass of _cleanup_if_needed:
the source sorts the dict items by the pair (hits, last_accessed). -/
def evictionLE (a b : CacheKey × CacheEntry) : Prop :=
  a.2.hits < b.2.hits ∨ (a.2.hits = b.2.hits ∧ a.2.last_accessed ≤ b.2.last_accessed)

instance : DecidableRel evictionLE := fun a b => by
  unfold evictionLE; infer_instance

instance : IsTotal (CacheKey × CacheEntry) evictionLE := by
  constructor
  intro p q
  rcases lt_trichotomy p.2.hits q.2.hits with h | h | h
  · exact Or.inl (Or.inl h)
  · rcases Nat.le_total p.2.last_accessed q.2.last_accessed with h2 | h2
    · exact Or.inl (Or.inr ⟨h, h2⟩)
    · exact Or.inr (Or.inr ⟨h.symm, h2⟩)
  · exact Or.inr (Or.inl h)

instance : IsTrans (CacheKey × CacheEntry) evictionLE := by
  constructor
  intro p q r hpq hqr
  rcases hpq with h1 | ⟨h1, h1v⟩
  · rcases hqr with h2 | ⟨h2, _⟩
    · exact Or.inl (h1.trans h2)
    · exact Or.inl (h2 ▸ h1)
  · rcases hqr with h2 | ⟨h2, h2v⟩
    · exact Or.inl (h1 ▸ h2)
    · exact Or.inr ⟨h1.trans h2, h1v.trans h2v⟩

/-- cache_manager.py, GTICacheManager._cleanup_if_needed: when the cache
holds more than 1000 entries, first delete every entry whose expires_at lies
strictly in the past, then, if more than 800 entries remain, delete the 200
entries that sort first by (hits, last_accessed).  The source deletes those
200 keys out of the dict; the model keeps the sorted survivors, the same
key set. -/
def _cleanup_if_needed (now : ℕ) (cache : Cache) : Cache :=
  if 1000 < cache.length then
    let c1 := cache.filter (fun kv => !(decide (kv.2.expires_at < now)))
    if 800 < c1.length then (List.insertionSort evictionLE c1).drop 200 else c1
  else cache

/-- The entry written by GTICacheManager.set. -/
def setEntry (now : ℕ) (operation : String) (data : ℕ) (expiry_seconds : ℕ)
    (params : List (String × ℕ)) : CacheEntry :=
  { data := data
    created_at := now
    expires_at := now + expiry_seconds
    last_accessed := now
    hits := 0
    operation := operation
    params := params }

/-- cache_manager.py, GTICacheManager.set: stores the entry under the derived
key with expires_at = now + expiry_seconds (defaulting to default_expiry),
then runs _cleanup_if_needed. -/
def set (enabled : Bool) (now : ℕ) (operation : String) (data : ℕ)
    (expiry_seconds : Option ℕ) (params : List (String × ℕ)) (cache : Cache) :
    Cache :=
  if enabled then
    let exp := expiry_seconds.getD default_expiry
    let k := _generate_cache_key operation params
    _cleanup_if_needed now (dictInsert k (setEntry now operation data exp params) cache)
  else cache

/-- cache_manager.py, GTICacheManager.invalidate: with no operation, clears
the whole cache; with an operation and parameters, deletes the derived key
if present.  Disabled caches are left untouched. -/
def invalidate (enabled : Bool) (target : Option (String × List (String × ℕ)))
    (cache : Cache) : Cache :=
  if enabled then
    match target with
    | none => ([] : Cache)
    | some (op, params) => dictErase (_generate_cache_key op params) cache
  else cache

/-- The value returned by GTICacheManager.get_stats: either the single-field
disabled report or the full report. -/
inductive CacheStatsReport where
  | disabled
  | enabled (total_entries expired_entries valid_entries total_hits : ℕ)
      (operations : List (String × ℕ × ℕ))
deriving DecidableEq

/-- Aggregation step of get_stats: bump the (count, hits) pair stored under
an operation name, creating it on first sight. -/
def bumpOp (op : String) (hits : ℕ) :
    List (String × ℕ × ℕ) → List (String × ℕ × ℕ)
  | [] => [(op, 1, hits)]
  | (o, c, h) :: rest =>
      if o = op then (o, c + 1, h + hits) :: rest else (o, c, h) :: bumpOp op hits rest

/-- Per-operation breakdown of get_stats, iterating the entries in order. -/
def opBreakdown (entries : List CacheEntry) : List (String × ℕ × ℕ) :=
  entries.foldl (fun acc e => bumpOp e.operation e.hits acc) []

/-- cache_manager.py, GTICacheManager.get_stats: reports only that the cache
is disabled when it is; otherwise counts entries, expired entries, valid
entries, cumulative hits and the per-operation breakdown. -/
def get_stats (enabled : Bool) (now : ℕ) (cache : Cache) : CacheStatsReport :=
  if enabled then
    let total := cache.length
    let expired := (cache.filter (fun kv => decide (kv.2.expires_at < now))).length
    CacheStatsReport.enabled total expired (total - expired)
      ((cache.map (fun kv => kv.2.hits)).sum)
      (opBreakdown (cache.map (fun kv => kv.2)))
  else CacheStatsReport.disabled

end GTICacheManager

namespace GTIRateLimiter

/-- rate_limiter.py: self.base_delay = 1.0. -/
def base_delay : ℚ := 1

/-- rate_limiter.py: self.max_delay = 10.0. -/
def max_delay : ℚ := 10

/-- rate_limiter.py: self.backoff_multiplier = 2. -/
def backoff_multiplier : ℚ := 2

/-- rate_limiter.py: self.retry_attempts = 3. -/
def retry_attempts : ℕ := 3

/-- rate_limiter.py, GTIRateLimiter.increase_delay: multiply the current
delay by the backoff multiplier, clamped above by max_delay. -/
def increase_delay (current_delay : ℚ) : ℚ :=
  min (current_delay * backoff_multiplier) max_delay

/-- rate_limiter.py, GTIRateLimiter.decrease_delay: multiply the current
delay by 0.8 (the exact rational 4/5), clamped below by base_delay. -/
def decrease_delay (current_delay : ℚ) : ℚ :=
  max (current_delay * (4 / 5)) base_delay

/-- rate_limiter.py, GTIRateLimiter.reset_delay: back to base_delay. -/
def reset_delay (_current_delay : ℚ) : ℚ := base_delay

end GTIRateLimiter

/-- One mutation of the shared current_delay field. -/
inductive DelayOp where
  | increase
  | decrease
  | reset

/-- Apply a sequence of delay mutations in order. -/
def applyDelayOps : List DelayOp → ℚ → ℚ
  | [], d => d
  | op :: ops, d =>
      applyDelayOps ops
        (match op with
         | .increase => GTIRateLimiter.increase_delay d
         | .decrease => GTIRateLimiter.decrease_delay d
         | .reset => GTIRateLimiter.reset_delay d)

/-- What one invocation of the wrapped function does: return a value or
raise an exception with the given message. -/
inductive CallOutcome where
  | ok (v : ℕ)
  | exn (msg : String)

/-- Lower-casing of an error message, as str(e).lower() does
(character-wise lowering of the text). -/
def lowerString (s : String) : String := ⟨s.data.map Char.toLower⟩

/-- Check of one chars list starting with another. -/
def headMatches : List Char → List Char → Bool
  | [], _ => true
  | _ :: _, [] => false
  | a :: as, b :: bs => a = b && headMatches as bs

/-- Substring containment over chars lists (the Python in operator on str). -/
def containsSub (needle : List Char) : List Char → Bool
  | [] => needle.isEmpty
  | c :: rest => headMatches needle (c :: rest) || containsSub needle rest

/-- rate_limiter.py, rate_limited_call error classification: the lower-cased
message contains "rate", "limit" or "quota". -/
def isRateLimitMsg (msg : String) : Bool :=
  let s := (lowerString msg).data
  containsSub "rate".data s || containsSub "limit".data s || containsSub "quota".data s

/-- Observable outcome of one rate_limited_call run: the returned value
(Except.error for a propagated exception; the source returns None when the
attempt loop is exhausted without returning, which is unreachable for a
positive attempt budget), the number of attempts that were started, the
number of increase_delay invocations, and the final current_delay. -/
structure RLRun where
  result : Except String (Option ℕ)
  attemptsMade : ℕ
  increases : ℕ
  delay : ℚ

/-- The attempt loop of rate_limiter.py, rate_limited_call, with the attempt
counter, the count of increase_delay calls, and the current_delay threaded
through.  fn is indexed by the attempt number so that each retry may observe
a different outcome.  The sleeps between retries do not affect the state
modelled. -/
def rlcLoop (fn : ℕ → CallOutcome) :
    ℕ → ℕ → ℕ → ℚ → RLRun
  | 0, attempt, incs, d => ⟨.ok none, attempt, incs, d⟩
  | fuel + 1, attempt, incs, d =>
      match fn attempt with
      | .ok v =>
          ⟨.ok (some v), attempt + 1, incs,
           if attempt = 0 then GTIRateLimiter.decrease_delay d else d⟩
      | .exn msg =>
          if isRateLimitMsg msg then
            if attempt < GTIRateLimiter.retry_attempts - 1 then
              rlcLoop fn fuel (attempt + 1) (incs + 1) (GTIRateLimiter.increase_delay d)
            else
              ⟨.error msg, attempt + 1, incs + 1, GTIRateLimiter.increase_delay d⟩
          else
            ⟨.error msg, attempt + 1, incs, d⟩

/-- rate_limiter.py, rate_limited_call: up to retry_attempts attempts of fn,
starting from the given current_delay. -/
def rate_limited_call (fn : ℕ → CallOutcome) (d : ℚ) : RLRun :=
  rlcLoop fn GTIRateLimiter.retry_attempts 0 0 d

/-- One qualifying scan result as consumed by the report assembly: the
symbol and its combined_score ranking field. -/
structure StockResult where
  symbol : String
  combined_score : ℤ
deriving DecidableEq

/-- The behaviour of one scan_single_stock call, which the orchestrator
treats as a black box: a qualifying result, a None (did not qualify),
or a raised exception with a message. -/
inductive StockOutcome where
  | ok (r : StockResult)
  | noqual
  | exn (msg : String)

/-- One submitted item: the stock symbol together with the behaviour its
work-function call will exhibit. -/
abbrev StockItem : Type := String × StockOutcome

/-- The dict returned by _process_stock_chunk. -/
structure ChunkOut where
  results : List StockResult
  errors : List String
  processed : ℕ

/-- lay_data_stock.py, _process_stock_chunk, collection loop: for each
completed future in order, count it as processed, then append a non-None
result to results, skip a None silently, and record a raised exception as
the single error entry "symbol: message".  The items are given in completion
order; this function covers the run in which no pool-level timeout fires, so
every submitted item is collected. -/
def _process_stock_chunk : List StockItem → ChunkOut
  | [] => ⟨[], [], 0⟩
  | (s, o) :: rest =>
      let acc := _process_stock_chunk rest
      match o with
      | .ok r => ⟨r :: acc.results, acc.errors, acc.processed + 1⟩
      | .noqual => ⟨acc.results, acc.errors, acc.processed + 1⟩
      | .exn m => ⟨acc.results, (s ++ ": " ++ m) :: acc.errors, acc.processed + 1⟩

/-- A chunk run under the pool-level timeout of as_completed: only the
futures that completed before the timeout fired (an initial segment of the
completion order) are collected; the concurrent.futures.TimeoutError is caught and the
tallies collected so far are returned. -/
def processChunkWithTimeout (collected : ℕ) (itemsInCompletionOrder : List StockItem) :
    ChunkOut :=
  _process_stock_chunk (itemsInCompletionOrder.take collected)

/-- Descending ranking order used by results.sort(key=combined_score,
reverse=True). -/
def resultGE (a b : StockResult) : Prop :=
  b.combined_score ≤ a.combined_score

instance : DecidableRel resultGE := fun a b => by
  unfold resultGE; infer_instance

instance : IsTotal StockResult resultGE := by
  constructor
  intro a b
  rcases Int.le_total a.combined_score b.combined_score with h | h
  · exact Or.inr h
  · exact Or.inl h

instance : IsTrans StockResult resultGE := by
  constructor
  intro a b c hab hbc
  exact le_trans hbc hab

/-- The chunk loop of market_scan_parallel for lists longer than
CHUNK_SIZE_FOR_LARGE_SCANS: slice off the next chunk, process it (with its
own timeout), accumulate results, errors and the processed count, and stop
early when 80 percent of the total time budget is used up after a chunk.
complete i reorders chunk i into its completion order, collected i says how
many of its futures completed before the chunk timeout, and stopAfter i is
the elapsed-time check made after chunk i.  The fuel is an upper bound on
the number of chunks; the list shrinks by a fixed positive amount each
round, so fuel = length of the list always suffices. -/
def scanChunksLoop (complete : ℕ → List StockItem → List StockItem)
    (collected : ℕ → ℕ) (stopAfter : ℕ → Bool) :
    ℕ → ℕ → List StockItem → ChunkOut → ChunkOut
  | 0, _, _, acc => acc
  | fuel + 1, i, remaining, acc =>
      if remaining.isEmpty then acc
      else
        let chunk := remaining.take GTIConfig.CHUNK_SIZE_FOR_LARGE_SCANS
        let co := processChunkWithTimeout (collected i) (complete i chunk)
        let acc2 : ChunkOut :=
          ⟨acc.results ++ co.results, acc.errors ++ co.errors, acc.processed + co.processed⟩
        if stopAfter i then acc2
        else
          scanChunksLoop complete collected stopAfter fuel (i + 1)
            (remaining.drop GTIConfig.CHUNK_SIZE_FOR_LARGE_SCANS) acc2

/-- The statistics block of the scan report. -/
structure ScanStatistics where
  total_scanned : ℕ
  processed_count : ℕ
  success_count : ℕ
  qualified_count : ℕ
  error_count : ℕ

/-- The dict returned by market_scan_parallel. -/
structure ScanReport where
  scan_results : List StockResult
  statistics : ScanStatistics
  errors : List String

/-- lay_data_stock.py, market_scan_parallel: lists longer than the chunk
threshold are processed chunk by chunk with an early stop; shorter lists in
one pass.  The accumulated results are then sorted by combined_score
descending and the statistics assembled from the tallies. -/
def market_scan_parallel (complete : ℕ → List StockItem → List StockItem)
    (collected : ℕ → ℕ) (stopAfter : ℕ → Bool) (stock_list : List StockItem) :
    ScanReport :=
  let co :=
    if GTIConfig.CHUNK_SIZE_FOR_LARGE_SCANS < stock_list.length then
      scanChunksLoop complete collected stopAfter stock_list.length 0 stock_list ⟨[], [], 0⟩
    else
      processChunkWithTimeout (collected 0) (complete 0 stock_list)
  let sortedResults := List.insertionSort resultGE co.results
  { scan_results := sortedResults
    statistics :=
      { total_scanned := stock_list.length
        processed_count := co.processed
        success_count := sortedResults.length
        qualified_count := sortedResults.length
        error_count := co.errors.length }
    errors := co.errors }

/-- task_manager.py, TaskStatus. -/
inductive TaskStatus where
  | pending
  | running
  | completed
  | failed
  | expired
deriving DecidableEq

/-- task_manager.py, the Task dataclass.  Scan-result payloads are opaque
and represented by naturals; parameters are the string-to-string mapping
assembled by the API layer. -/
structure MTask where
  task_id : String
  task_type : String
  parameters : List (String × String)
  status : TaskStatus
  created_at : ℕ
  started_at : Option ℕ
  completed_at : Option ℕ
  result : Option ℕ
  error : Option String
  progress_message : String
deriving DecidableEq

/-- The self.tasks dict of TaskManager. -/
abbrev TaskMap : Type := List (String × MTask)

/-- The four scan entry points of lay_data_stock that the task executors
call.  They perform network-bound work and are opaque to the task manager,
so they enter the model as an environment: each one maps the parameters of
the task to a produced payload or a raised exception. -/
structure ScanEnv where
  top_picks : List (String × String) → Except String ℕ
  sector_scan : List (String × String) → Except String ℕ
  category_scan : List (String × String) → Except String ℕ
  custom_scan : List (String × String) → Except String ℕ

namespace TaskManager

/-- task_manager.py, TaskManager.create_task: record a fresh PENDING task
under a new id and submit its execution to the background executor.  The
function is total: no validation of task_type happens here.  The uuid4
generation is modelled by the caller-supplied fresh id. -/
def create_task (tasks : TaskMap) (task_id : String) (task_type : String)
    (parameters : List (String × String)) (now : ℕ) : String × TaskMap :=
  let t : MTask :=
    { task_id := task_id
      task_type := task_type
      parameters := parameters
      status := TaskStatus.pending
      created_at := now
      started_at := none
      completed_at := none
      result := none
      error := none
      progress_message := "Đang khởi tạo tác vụ..." }
  (task_id, dictInsert task_id t tasks)

/-- The dispatch switch inside TaskManager._execute_task: the four known
task types call their executors (whose scan work is the environment); any
other type raises ValueError with this exact message. -/
def dispatchScan (env : ScanEnv) (t : MTask) : Except String ℕ :=
  if t.task_type = "top_picks" then env.top_picks t.parameters
  else if t.task_type = "sector_scan" then env.sector_scan t.parameters
  else if t.task_type = "category_scan" then env.category_scan t.parameters
  else if t.task_type = "custom_scan" then env.custom_scan t.parameters
  else Except.error ("Unknown task type: " ++ t.task_type)

/-- task_manager.py, TaskManager._execute_task, run on a background worker:
mark the task RUNNING, dispatch on its type, then record either the produced
result with status COMPLETED or the message of any raised exception with
status FAILED.  Unknown ids do nothing. -/
def _execute_task (env : ScanEnv) (tasks : TaskMap) (task_id : String) (now : ℕ) :
    TaskMap :=
  match dictLookup task_id tasks with
  | none => tasks
  | some t =>
      let t1 := { t with
        status := TaskStatus.running
        started_at := some now
        progress_message := "Đang thực hiện phân tích..." }
      match dispatchScan env t1 with
      | Except.ok r =>
          dictUpdate task_id
            { t1 with
              status := TaskStatus.completed
              completed_at := some now
              result := some r
              progress_message := "Hoàn thành phân tích!" } tasks
      | Except.error e =>
          dictUpdate task_id
            { t1 with
              status := TaskStatus.failed
              completed_at := some now
              error := some e
              progress_message := "Lỗi: " ++ e } tasks

/-- Retention-window test of task_manager.py: now - created_at > 1 hour. -/
def taskTooOld (created_at now : ℕ) : Bool :=
  decide (created_at + 3600 < now)

/-- The status payload built by TaskManager.get_task_status. -/
structure TaskStatusView where
  task_id : String
  task_type : String
  status : TaskStatus
  created_at : ℕ
  started_at : Option ℕ
  completed_at : Option ℕ
  progress_message : String
  error : Option String
  has_result : Bool
deriving DecidableEq

/-- task_manager.py, TaskManager.get_task_status: none for unknown ids;
otherwise, when the task is older than the one-hour retention window, its
status field is overwritten with EXPIRED (a mutation of the shared Task
object, hence of the stored map), and the snapshot of the task is
returned together with the map afterwards. -/
def get_task_status (tasks : TaskMap) (task_id : String) (now : ℕ) :
    Option TaskStatusView × TaskMap :=
  match dictLookup task_id tasks with
  | none => (none, tasks)
  | some t =>
      let t1 := if taskTooOld t.created_at now then { t with status := TaskStatus.expired } else t
      (some
        { task_id := t1.task_id
          task_type := t1.task_type
          status := t1.status
          created_at := t1.created_at
          started_at := t1.started_at
          completed_at := t1.completed_at
          progress_message := t1.progress_message
          error := t1.error
          has_result := t1.result.isSome },
       dictUpdate task_id t1 tasks)

/-- task_manager.py, TaskManager.get_task_result: the stored result when the
task exists and its status is COMPLETED, none otherwise.  Note that no
clock is consulted: the age of the task plays no part here. -/
def get_task_result (tasks : TaskMap) (task_id : String) : Option ℕ :=
  match dictLookup task_id tasks with
  | none => none
  | some t => if t.status = TaskStatus.completed then t.result else none

/-- task_manager.py, TaskManager._cleanup_expired_tasks, run by the
half-hourly timer: delete every task older than the one-hour window. -/
def _cleanup_expired_tasks (tasks : TaskMap) (now : ℕ) : TaskMap :=
  tasks.filter (fun kv => !(taskTooOld kv.2.created_at now))

end TaskManager

/-- A 1000-entry cache of distinct keys, every entry valid far into the
future and already hit once: the filler used to drive the capacity cleanup. -/
def fillerEntry : CacheEntry :=
  { data := 0
    created_at := 0
    expires_at := 999999
    last_accessed := 5
    hits := 1
    operation := "other"
    params := [] }

/-- One thousand distinct-key bindings of fillerEntry. -/
def bigCache : Cache :=
  (List.range 1000).map (fun i => ((("other" : String), [(("i" : String), i)]), fillerEntry))

/-- An environment whose four scan functions all succeed with payload 0. -/
def trivialScanEnv : ScanEnv :=
  { top_picks := fun _ => Except.ok 0
    sector_scan := fun _ => Except.ok 0
    category_scan := fun _ => Except.ok 0
    custom_scan := fun _ => Except.ok 0 }

/-- A task that completed with a stored result and was created at time 0. -/
def completedOldTask : MTask :=
  { task_id := "t0"
    task_type := "top_picks"
    parameters := []
    status := TaskStatus.completed
    created_at := 0
    started_at := some 1
    completed_at := some 2
    result := some 42
    error := none
    progress_message := "Hoàn thành phân tích!" }

theorem dictLookup_cons {κ α : Type} [DecidableEq κ] (k : κ) (a : κ × α)
    (rest : List (κ × α)) :
    dictLookup k (a :: rest) = if a.1 = k then some a.2 else dictLookup k rest := rfl

theorem dictUpdate_cons {κ α : Type} [DecidableEq κ] (k : κ) (v : α) (a : κ × α)
    (rest : List (κ × α)) :
    dictUpdate k v (a :: rest) = (if a.1 = k then (k, v) else a) :: dictUpdate k v rest := rfl

theorem dictContains_cons {κ α : Type} [DecidableEq κ] (k : κ) (a : κ × α)
    (rest : List (κ × α)) :
    dictContains k (a :: rest) = (decide (a.1 = k) || dictContains k rest) := rfl

theorem dictLookup_dictUpdate_of_contains {κ α : Type} [DecidableEq κ] {k : κ}
    {l : List (κ × α)} (v : α) (h : dictContains k l = true) :
    dictLookup k (dictUpdate k v l) = some v := by
  induction l with
  | nil => simp [dictContains] at h
  | cons a rest ih =>
      rw [dictUpdate_cons]
      by_cases ha : a.1 = k
      · rw [if_pos ha, dictLookup_cons]
        simp
      · rw [if_neg ha, dictLookup_cons, if_neg ha]
        rw [dictContains_cons, decide_eq_false ha, Bool.false_or] at h
        exact ih h

theorem dictLookup_dictUpdate_of_lookup {κ α : Type} [DecidableEq κ] {k : κ} {t : α}
    {l : List (κ × α)} (v : α) (h : dictLookup k l = some t) :
    dictLookup k (dictUpdate k v l) = some v := by
  induction l with
  | nil => simp [dictLookup] at h
  | cons a rest ih =>
      rw [dictUpdate_cons]
      by_cases ha : a.1 = k
      · rw [if_pos ha, dictLookup_cons]
        simp
      · rw [dictLookup_cons, if_neg ha] at h
        rw [if_neg ha, dictLookup_cons, if_neg ha]
        exact ih h

theorem dictContains_of_lookup {κ α : Type} [DecidableEq κ] {k : κ} {t : α}
    {l : List (κ × α)} (h : dictLookup k l = some t) :
    dictContains k l = true := by
  induction l with
  | nil => simp [dictLookup] at h
  | cons a rest ih =>
      rw [dictContains_cons]
      by_cases ha : a.1 = k
      · simp [ha]
      · rw [dictLookup_cons, if_neg ha] at h
        rw [ih h, Bool.or_true]

theorem dictLookup_append_single {κ α : Type} [DecidableEq κ] {k : κ} (v : α)
    {l : List (κ × α)} (h : dictContains k l = false) :
    dictLookup k (l ++ [(k, v)]) = some v := by
  induction l with
  | nil => simp [dictLookup]
  | cons a rest ih =>
      rw [dictContains_cons, Bool.or_eq_false_iff, decide_eq_false_iff_not] at h
      rw [List.cons_append, dictLookup_cons, if_neg h.1]
      exact ih h.2

theorem dictLookup_dictInsert_self {κ α : Type} [DecidableEq κ] (k : κ) (v : α)
    (l : List (κ × α)) : dictLookup k (dictInsert k v l) = some v := by
  unfold dictInsert
  by_cases hc : dictContains k l = true
  · rw [if_pos hc]
    exact dictLookup_dictUpdate_of_contains v hc
  · simp only [Bool.not_eq_true] at hc
    rw [hc]
    simp only [Bool.false_eq_true, if_false]
    exact dictLookup_append_single v hc

theorem dictLookup_dictErase_self {κ α : Type} [DecidableEq κ] (k : κ)
    (l : List (κ × α)) : dictLookup k (dictErase k l) = none := by
  induction l with
  | nil => rfl
  | cons a rest ih =>
      unfold dictErase at ih ⊢
      rw [List.filter_cons]
      by_cases ha : a.1 = k
      · rw [decide_eq_true ha, Bool.not_true]
        simp only [Bool.false_eq_true, if_false]
        exact ih
      · simp only [decide_eq_false ha, Bool.not_false, if_true, dictLookup_cons, if_neg ha]
        exact ih

theorem length_dictInsert_le {κ α : Type} [DecidableEq κ] (k : κ) (v : α)
    (l : List (κ × α)) : (dictInsert k v l).length ≤ l.length + 1 := by
  unfold dictInsert
  by_cases hc : dictContains k l = true
  · simp [hc, dictUpdate]
  · simp only [Bool.not_eq_true] at hc
    simp [hc]

theorem dictLookup_eq_none_of_keys_avoid {κ α : Type} [DecidableEq κ] {k : κ}
    {l : List (κ × α)} (h : ∀ kv ∈ l, kv.1 ≠ k) : dictLookup k l = none := by
  induction l with
  | nil => rfl
  | cons a rest ih =>
      rw [dictLookup_cons, if_neg (h a (List.mem_cons_self a rest))]
      exact ih (fun kv hkv => h kv (List.mem_cons_of_mem a hkv))

theorem dictLookup_filter_eq_none {κ α : Type} [DecidableEq κ] {k : κ} {t : α}
    {l : List (κ × α)} {f : κ × α → Bool}
    (hnd : (l.map Prod.fst).Nodup) (hl : dictLookup k l = some t)
    (hf : f (k, t) = false) : dictLookup k (l.filter f) = none := by
  induction l with
  | nil => simp [dictLookup] at hl
  | cons a rest ih =>
      simp only [List.map_cons, List.nodup_cons] at hnd
      rw [List.filter_cons]
      by_cases ha : a.1 = k
      · rw [dictLookup_cons, if_pos ha] at hl
        have haeq : a = (k, t) := by
          cases a
          simp only [Option.some.injEq] at hl
          simp only at ha
          simp [ha, hl]
        rw [haeq, hf]
        simp only [Bool.false_eq_true, if_false]
        refine dictLookup_eq_none_of_keys_avoid ?_
        intro kv hkv
        have hmem : kv.1 ∈ rest.map Prod.fst :=
          List.mem_map_of_mem _ (List.mem_of_mem_filter hkv)
        intro hk
        exact (haeq ▸ hnd.1) (hk ▸ hmem)
      · rw [dictLookup_cons, if_neg ha] at hl
        by_cases hfa : f a = true
        · rw [hfa]
          simp only [if_true, dictLookup_cons, if_neg ha]
          exact ih hnd.2 hl
        · simp only [Bool.not_eq_true] at hfa
          rw [hfa]
          simp only [Bool.false_eq_true, if_false]
          exact ih hnd.2 hl

theorem processChunk_processed (items : List StockItem) :
    (_process_stock_chunk items).processed = items.length := by
  induction items with
  | nil => rfl
  | cons it rest ih =>
      obtain ⟨s, o⟩ := it
      cases o <;> simp [_process_stock_chunk, ih]

theorem scanChunksLoop_processed_le (complete : ℕ → List StockItem → List StockItem)
    (collected : ℕ → ℕ) (stopAfter : ℕ → Bool)
    (hperm : ∀ i c, List.Perm (complete i c) c) :
    ∀ (fuel i : ℕ) (remaining : List StockItem) (acc : ChunkOut),
      (scanChunksLoop complete collected stopAfter fuel i remaining acc).processed ≤
        acc.processed + remaining.length := by
  intro fuel
  induction fuel with
  | zero =>
      intro i remaining acc
      simp [scanChunksLoop]
  | succ fuel ih =>
      intro i remaining acc
      by_cases hemp : remaining.isEmpty
      · simp [scanChunksLoop, hemp]
      · have hbase : (processChunkWithTimeout (collected i)
            (complete i (remaining.take GTIConfig.CHUNK_SIZE_FOR_LARGE_SCANS))).processed ≤
            (remaining.take GTIConfig.CHUNK_SIZE_FOR_LARGE_SCANS).length := by
          rw [processChunkWithTimeout, processChunk_processed, List.length_take,
            (hperm i _).length_eq]
          exact Nat.min_le_right _ _
        have h1 : (processChunkWithTimeout (collected i)
            (complete i (remaining.take GTIConfig.CHUNK_SIZE_FOR_LARGE_SCANS))).processed ≤
            GTIConfig.CHUNK_SIZE_FOR_LARGE_SCANS :=
          hbase.trans (by rw [List.length_take]; exact Nat.min_le_left _ _)
        have h2 : (processChunkWithTimeout (collected i)
            (complete i (remaining.take GTIConfig.CHUNK_SIZE_FOR_LARGE_SCANS))).processed ≤
            remaining.length :=
          hbase.trans (by rw [List.length_take]; exact Nat.min_le_right _ _)
        by_cases hstop : stopAfter i
        · simp only [scanChunksLoop, hemp, Bool.false_eq_true, if_false, hstop, if_true]
          omega
        · simp only [scanChunksLoop, hemp, Bool.false_eq_true, if_false, hstop]
          refine le_trans
            (ih (i + 1) (remaining.drop GTIConfig.CHUNK_SIZE_FOR_LARGE_SCANS) _) ?_
          simp only [List.length_drop]
          omega

theorem applyDelayOps_bounds : ∀ (ops : List DelayOp) (d : ℚ),
    GTIRateLimiter.base_delay ≤ d → d ≤ GTIRateLimiter.max_delay →
    GTIRateLimiter.base_delay ≤ applyDelayOps ops d ∧
      applyDelayOps ops d ≤ GTIRateLimiter.max_delay := by
  intro ops
  induction ops with
  | nil =>
      intro d h1 h2
      exact ⟨h1, h2⟩
  | cons op rest ih =>
      intro d h1 h2
      cases op with
      | increase =>
          refine ih _ ?_ ?_
          · refine le_min ?_ ?_
            · unfold GTIRateLimiter.base_delay GTIRateLimiter.backoff_multiplier at *
              linarith
            · unfold GTIRateLimiter.base_delay GTIRateLimiter.max_delay
              norm_num
          · exact min_le_right _ _
      | decrease =>
          refine ih _ ?_ ?_
          · exact le_max_right _ _
          · refine max_le ?_ ?_
            · unfold GTIRateLimiter.base_delay GTIRateLimiter.max_delay at *
              linarith
            · unfold GTIRateLimiter.base_delay GTIRateLimiter.max_delay
              norm_num
      | reset =>
          refine ih _ ?_ ?_
          · exact le_refl _
          · unfold GTIRateLimiter.reset_delay GTIRateLimiter.base_delay GTIRateLimiter.max_delay
            norm_num

/-- C9: starting from base_delay, any sequence of increase_delay,
decrease_delay and reset_delay operations keeps the current delay inside
the closed interval from base_delay to max_delay. -/
theorem rate_limiter_delay_invariant (ops : List DelayOp) :
    GTIRateLimiter.base_delay ≤ applyDelayOps ops GTIRateLimiter.base_delay ∧
      applyDelayOps ops GTIRateLimiter.base_delay ≤ GTIRateLimiter.max_delay := by
  refine applyDelayOps_bounds ops GTIRateLimiter.base_delay (le_refl _) ?_
  unfold GTIRateLimiter.base_delay GTIRateLimiter.max_delay
  norm_num

/-- C10: with caching disabled, get reads nothing and leaves the cache as
it is, set and invalidate leave the cache contents completely unchanged,
and get_stats reports only that the cache is disabled. -/
theorem cache_disabled_noop (now : ℕ) (op : String) (v : ℕ) (ttl : Option ℕ)
    (params : List (String × ℕ)) (target : Option (String × List (String × ℕ)))
    (c : Cache) :
    GTICacheManager.get false now op params c = (none, c) ∧
    GTICacheManager.set false now op v ttl params c = c ∧
    GTICacheManager.invalidate false target c = c ∧
    GTICacheManager.get_stats false now c = GTICacheManager.CacheStatsReport.disabled :=
  ⟨rfl, rfl, rfl, rfl⟩

/-- C6: the derived cache key does not depend on the order in which the
parameters are supplied: two parameter lists holding the same bindings give
the same key, so a set in one order and a get in another hit one entry. -/
theorem cache_key_order_independent (op : String) (ps qs : List (String × ℕ))
    (h : List.Perm ps qs) :
    GTICacheManager._generate_cache_key op ps = GTICacheManager._generate_cache_key op qs := by
  unfold GTICacheManager._generate_cache_key
  refine congrArg (fun l => (op, l)) ?_
  exact List.eq_of_perm_of_sorted
    ((List.perm_insertionSort paramLE ps).trans
      (h.trans (List.perm_insertionSort paramLE qs).symm))
    (List.sorted_insertionSort paramLE ps)
    (List.sorted_insertionSort paramLE qs)

/-- C6 witness: the two-binding mappings of the spec example, given in the
two orders, derive the same cache key. -/
theorem cache_key_order_independent_witness :
    List.Perm [(("a" : String), 1), (("b" : String), 2)] [("b", 2), ("a", 1)] ∧
    GTICacheManager._generate_cache_key "op" [("a", 1), ("b", 2)] =
      GTICacheManager._generate_cache_key "op" [("b", 2), ("a", 1)] :=
  ⟨by decide, cache_key_order_independent "op" _ _ (by decide)⟩

/-- C3: rate_limited_call makes at most retry_attempts = 3 attempts.  An
attempt that raises a non-rate-limit message propagates that error at once,
with no further attempt and no delay change; an attempt that raises a
rate-limit message calls increase_delay and retries; when all three
attempts raise rate-limit messages, the third message is propagated.  The
seven cases below cover every behaviour of the wrapped function up to the
attempt at which the loop exits. -/
theorem rate_limited_call_retry_policy (fn : ℕ → CallOutcome) (d : ℚ) :
    (∀ v, fn 0 = CallOutcome.ok v →
        rate_limited_call fn d =
          ⟨Except.ok (some v), 1, 0, GTIRateLimiter.decrease_delay d⟩) ∧
    (∀ m, fn 0 = CallOutcome.exn m → isRateLimitMsg m = false →
        rate_limited_call fn d = ⟨Except.error m, 1, 0, d⟩) ∧
    (∀ m0 v, fn 0 = CallOutcome.exn m0 → isRateLimitMsg m0 = true →
        fn 1 = CallOutcome.ok v →
        rate_limited_call fn d =
          ⟨Except.ok (some v), 2, 1, GTIRateLimiter.increase_delay d⟩) ∧
    (∀ m0 m1, fn 0 = CallOutcome.exn m0 → isRateLimitMsg m0 = true →
        fn 1 = CallOutcome.exn m1 → isRateLimitMsg m1 = false →
        rate_limited_call fn d =
          ⟨Except.error m1, 2, 1, GTIRateLimiter.increase_delay d⟩) ∧
    (∀ m0 m1 v, fn 0 = CallOutcome.exn m0 → isRateLimitMsg m0 = true →
        fn 1 = CallOutcome.exn m1 → isRateLimitMsg m1 = true →
        fn 2 = CallOutcome.ok v →
        rate_limited_call fn d =
          ⟨Except.ok (some v), 3, 2,
           GTIRateLimiter.increase_delay (GTIRateLimiter.increase_delay d)⟩) ∧
    (∀ m0 m1 m2, fn 0 = CallOutcome.exn m0 → isRateLimitMsg m0 = true →
        fn 1 = CallOutcome.exn m1 → isRateLimitMsg m1 = true →
        fn 2 = CallOutcome.exn m2 → isRateLimitMsg m2 = false →
        rate_limited_call fn d =
          ⟨Except.error m2, 3, 2,
           GTIRateLimiter.increase_delay (GTIRateLimiter.increase_delay d)⟩) ∧
    (∀ m0 m1 m2, fn 0 = CallOutcome.exn m0 → isRateLimitMsg m0 = true →
        fn 1 = CallOutcome.exn m1 → isRateLimitMsg m1 = true →
        fn 2 = CallOutcome.exn m2 → isRateLimitMsg m2 = true →
        rate_limited_call fn d =
          ⟨Except.error m2, 3, 3,
           GTIRateLimiter.increase_delay (GTIRateLimiter.increase_delay
             (GTIRateLimiter.increase_delay d))⟩) := by
  refine ⟨?_, ?_, ?_, ?_, ?_, ?_, ?_⟩
  · intro v h0
    simp [rate_limited_call, GTIRateLimiter.retry_attempts, rlcLoop, h0]
  · intro m h0 hm
    simp [rate_limited_call, GTIRateLimiter.retry_attempts, rlcLoop, h0, hm]
  · intro m0 v h0 hm0 h1
    simp [rate_limited_call, GTIRateLimiter.retry_attempts, rlcLoop, h0, hm0, h1]
  · intro m0 m1 h0 hm0 h1 hm1
    simp [rate_limited_call, GTIRateLimiter.retry_attempts, rlcLoop, h0, hm0, h1, hm1]
  · intro m0 m1 v h0 hm0 h1 hm1 h2
    simp [rate_limited_call, GTIRateLimiter.retry_attempts, rlcLoop, h0, hm0, h1, hm1, h2]
  · intro m0 m1 m2 h0 hm0 h1 hm1 h2 hm2
    simp [rate_limited_call, GTIRateLimiter.retry_attempts, rlcLoop, h0, hm0, h1, hm1, h2, hm2]
  · intro m0 m1 m2 h0 hm0 h1 hm1 h2 hm2
    simp [rate_limited_call, GTIRateLimiter.retry_attempts, rlcLoop, h0, hm0, h1, hm1, h2, hm2]

/-- C3 witness: a function whose first attempt raises "boom", which does not
match the rate-limit signature, is not retried: one attempt, no
increase_delay, the error propagated, the delay untouched. -/
theorem rate_limited_call_retry_policy_witness :
    isRateLimitMsg "boom" = false ∧
    rate_limited_call (fun _ => CallOutcome.exn "boom") 1 =
      ⟨Except.error "boom", 1, 0, 1⟩ :=
  ⟨by decide,
   (rate_limited_call_retry_policy (fun _ => CallOutcome.exn "boom") 1).2.1 "boom" rfl
     (by decide)⟩

theorem cleanup_high_water_bound (now : ℕ) (c2 : Cache)
    (h1 : 1000 < c2.length) (h2 : c2.length ≤ 1001) :
    (GTICacheManager._cleanup_if_needed now c2).length ≤ 1000 ∧
    ∀ kv ∈ GTICacheManager._cleanup_if_needed now c2, ¬ kv.2.expires_at < now := by
  unfold GTICacheManager._cleanup_if_needed
  rw [if_pos h1]
  have hfl : (c2.filter (fun kv => !(decide (kv.2.expires_at < now)))).length ≤ c2.length :=
    List.length_filter_le _ _
  have hmemc1 : ∀ kv ∈ c2.filter (fun kv => !(decide (kv.2.expires_at < now))),
      ¬ kv.2.expires_at < now := by
    intro kv hkv
    have := List.of_mem_filter hkv
    simpa using this
  by_cases h8 : 800 < (c2.filter (fun kv => !(decide (kv.2.expires_at < now)))).length
  · rw [if_pos h8]
    constructor
    · rw [List.length_drop, List.length_insertionSort]
      omega
    · intro kv hkv
      have hsort : kv ∈ List.insertionSort GTICacheManager.evictionLE
          (c2.filter (fun kv => !(decide (kv.2.expires_at < now)))) :=
        List.mem_of_mem_drop hkv
      exact hmemc1 kv
        ((List.perm_insertionSort GTICacheManager.evictionLE _).mem_iff.mp hsort)
  · rw [if_neg h8]
    exact ⟨by omega, hmemc1⟩

/-- C4: when a set pushes the cache above the 1000-entry high-water mark
(which, from a reachable state of at most 1000 entries, means exactly 1001
entries before cleanup), the cleanup that runs inside that set brings the
count back to at most 1000, and every entry it retains is valid at the
cleanup instant: no expired entry is kept, in particular none is kept while
a valid entry is evicted. -/
theorem cache_cleanup_high_water_invariant (now : ℕ) (op : String) (v : ℕ)
    (ttl : Option ℕ) (params : List (String × ℕ)) (c : Cache)
    (hc : c.length ≤ 1000)
    (hpush : 1000 < (dictInsert (GTICacheManager._generate_cache_key op params)
        (GTICacheManager.setEntry now op v (ttl.getD GTICacheManager.default_expiry) params)
        c).length) :
    (GTICacheManager.set true now op v ttl params c).length ≤ 1000 ∧
    ∀ kv ∈ GTICacheManager.set true now op v ttl params c, ¬ kv.2.expires_at < now := by
  have hins : (dictInsert (GTICacheManager._generate_cache_key op params)
      (GTICacheManager.setEntry now op v (ttl.getD GTICacheManager.default_expiry) params)
      c).length ≤ 1001 :=
    le_trans (length_dictInsert_le _ _ _) (by omega)
  have hset : GTICacheManager.set true now op v ttl params c =
      GTICacheManager._cleanup_if_needed now
        (dictInsert (GTICacheManager._generate_cache_key op params)
          (GTICacheManager.setEntry now op v (ttl.getD GTICacheManager.default_expiry) params)
          c) := rfl
  rw [hset]
  exact cleanup_high_water_bound now _ hpush hins

set_option maxRecDepth 100000 in
/-- C4 witness: a set landing on a full cache of 1000 valid filler entries
pushes the count to 1001, and the theorem applies. -/
theorem cache_cleanup_high_water_invariant_witness :
    bigCache.length ≤ 1000 ∧
    1000 < (dictInsert (GTICacheManager._generate_cache_key "op1" [("p", 1)])
        (GTICacheManager.setEntry 5 "op1" 42
          ((some 60).getD GTICacheManager.default_expiry) [("p", 1)]) bigCache).length ∧
    ((GTICacheManager.set true 5 "op1" 42 (some 60) [("p", 1)] bigCache).length ≤ 1000 ∧
      ∀ kv ∈ GTICacheManager.set true 5 "op1" 42 (some 60) [("p", 1)] bigCache,
        ¬ kv.2.expires_at < 5) :=
  ⟨by decide, by decide,
   cache_cleanup_high_water_invariant 5 "op1" 42 (some 60) [("p", 1)] bigCache
     (by decide) (by decide)⟩

/-- C5 (amended): provided the insertion does not push the cache above the
1000-entry high-water mark (so the capacity cleanup inside set does not
run an eviction), a get with the same operation and parameters after a set
returns exactly the stored value at any instant strictly before
expires_at = set time + ttl, and at or after that instant it misses and
removes the expired entry from the cache on that lookup. -/
theorem cache_get_after_set_ttl_semantics (now t : ℕ) (op : String) (v ttl : ℕ)
    (params : List (String × ℕ)) (c : Cache)
    (hlen : (dictInsert (GTICacheManager._generate_cache_key op params)
        (GTICacheManager.setEntry now op v ttl params) c).length ≤ 1000) :
    (t < now + ttl →
      (GTICacheManager.get true t op params
        (GTICacheManager.set true now op v (some ttl) params c)).1 = some v) ∧
    (now + ttl ≤ t →
      (GTICacheManager.get true t op params
        (GTICacheManager.set true now op v (some ttl) params c)).1 = none ∧
      dictLookup (GTICacheManager._generate_cache_key op params)
        (GTICacheManager.get true t op params
          (GTICacheManager.set true now op v (some ttl) params c)).2 = none) := by
  have hset : GTICacheManager.set true now op v (some ttl) params c =
      dictInsert (GTICacheManager._generate_cache_key op params)
        (GTICacheManager.setEntry now op v ttl params) c := by
    show GTICacheManager._cleanup_if_needed now
        (dictInsert (GTICacheManager._generate_cache_key op params)
          (GTICacheManager.setEntry now op v ttl params) c) = _
    unfold GTICacheManager._cleanup_if_needed
    rw [if_neg (by omega)]
  have hlook : dictLookup (GTICacheManager._generate_cache_key op params)
      (GTICacheManager.set true now op v (some ttl) params c) =
      some (GTICacheManager.setEntry now op v ttl params) := by
    rw [hset]
    exact dictLookup_dictInsert_self _ _ _
  constructor
  · intro ht
    simp only [GTICacheManager.get, if_true, hlook, GTICacheManager.setEntry]
    rw [if_pos ht]
  · intro ht
    simp only [GTICacheManager.get, if_true, hlook, GTICacheManager.setEntry]
    rw [if_neg (by omega)]
    exact ⟨rfl, dictLookup_dictErase_self _ _⟩

/-- C5 witness: on an empty cache, a set with ttl 60 at time 0 is read back
at time 10 and the theorem applies. -/
theorem cache_get_after_set_ttl_semantics_witness :
    (dictInsert (GTICacheManager._generate_cache_key "op" [("p", 1)])
        (GTICacheManager.setEntry 0 "op" 7 60 [("p", 1)]) ([] : Cache)).length ≤ 1000 ∧
    ((10 < 0 + 60 →
        (GTICacheManager.get true 10 "op" [("p", 1)]
          (GTICacheManager.set true 0 "op" 7 (some 60) [("p", 1)] [])).1 = some 7) ∧
      (0 + 60 ≤ 10 →
        (GTICacheManager.get true 10 "op" [("p", 1)]
          (GTICacheManager.set true 0 "op" 7 (some 60) [("p", 1)] [])).1 = none ∧
        dictLookup (GTICacheManager._generate_cache_key "op" [("p", 1)])
          (GTICacheManager.get true 10 "op" [("p", 1)]
            (GTICacheManager.set true 0 "op" 7 (some 60) [("p", 1)] [])).2 = none)) :=
  ⟨by decide, cache_get_after_set_ttl_semantics 0 10 "op" 7 60 [("p", 1)] [] (by decide)⟩

set_option maxRecDepth 100000 in
/-- C5 counterexample to the claim as stated: on a cache of 1000 valid,
already-hit filler entries, a set pushes the count to 1001 and the capacity
cleanup evicts the just-stored entry (hit count 0 sorts first), so the get
with the same operation and parameters immediately afterwards, strictly
before the ttl elapses, already returns no value. -/
theorem cache_get_after_set_evicted_before_ttl :
    (5 : ℕ) < 5 + 60 ∧
    (GTICacheManager.get true 5 "op1" [("p", 1)]
      (GTICacheManager.set true 5 "op1" 42 (some 60) [("p", 1)] bigCache)).1 = none := by
  constructor
  · decide
  · decide

/-- C8: in a chunk run in which no timeout fires, every item whose call
raises contributes exactly one entry to the error list (the item name with
the message), every item whose call returns a non-null result contributes
exactly one entry to the results list, a null-returning item is counted as
processed but recorded nowhere, the processed count is the full item count,
and no failure aborts the run.  With 10 items of which 3 raise and 7 return
results this gives exactly 7 results, 3 errors and processed count 10. -/
theorem process_chunk_failure_accounting (items : List StockItem) :
    (_process_stock_chunk items).results =
      items.filterMap (fun it => match it.2 with
        | StockOutcome.ok r => some r
        | _ => none) ∧
    (_process_stock_chunk items).errors =
      items.filterMap (fun it => match it.2 with
        | StockOutcome.exn m => some (it.1 ++ ": " ++ m)
        | _ => none) ∧
    (_process_stock_chunk items).processed = items.length := by
  refine ⟨?_, ?_, processChunk_processed items⟩
  · induction items with
    | nil => rfl
    | cons it rest ih =>
        obtain ⟨s, o⟩ := it
        cases o <;> simp [_process_stock_chunk, List.filterMap_cons, ih]
  · induction items with
    | nil => rfl
    | cons it rest ih =>
        obtain ⟨s, o⟩ := it
        cases o <;> simp [_process_stock_chunk, List.filterMap_cons, ih]

/-- C7: whatever the completion orders, the chunk cutoffs and the early
stop decisions, the scan report lists its results sorted by combined_score
descending, and the processed count never exceeds the number of input
items. -/
theorem market_scan_sorted_and_processed_bound
    (complete : ℕ → List StockItem → List StockItem) (collected : ℕ → ℕ)
    (stopAfter : ℕ → Bool) (stock_list : List StockItem)
    (hperm : ∀ i c, List.Perm (complete i c) c) :
    List.Sorted resultGE
      (market_scan_parallel complete collected stopAfter stock_list).scan_results ∧
    (market_scan_parallel complete collected stopAfter stock_list).statistics.processed_count ≤
      (market_scan_parallel complete collected stopAfter stock_list).statistics.total_scanned := by
  constructor
  · exact List.sorted_insertionSort resultGE _
  · simp only [market_scan_parallel]
    by_cases hbig : GTIConfig.CHUNK_SIZE_FOR_LARGE_SCANS < stock_list.length
    · rw [if_pos hbig]
      simpa using
        scanChunksLoop_processed_le complete collected stopAfter hperm
          stock_list.length 0 stock_list ⟨[], [], 0⟩
    · rw [if_neg hbig]
      rw [processChunkWithTimeout, processChunk_processed, List.length_take,
        (hperm 0 _).length_eq]
      exact Nat.min_le_right _ _

/-- C7 witness: a three-item scan whose middle item raises, with the
identity completion order; the report is score-sorted and the processed
count bounded by the input count. -/
theorem market_scan_sorted_and_processed_bound_witness :
    List.Sorted resultGE
      (market_scan_parallel (fun _ c => c) (fun _ => 100) (fun _ => false)
        [("A", StockOutcome.ok ⟨"A", 3⟩), ("B", StockOutcome.exn "x"),
         ("C", StockOutcome.ok ⟨"C", 7⟩)]).scan_results ∧
    (market_scan_parallel (fun _ c => c) (fun _ => 100) (fun _ => false)
        [("A", StockOutcome.ok ⟨"A", 3⟩), ("B", StockOutcome.exn "x"),
         ("C", StockOutcome.ok ⟨"C", 7⟩)]).statistics.processed_count ≤
      (market_scan_parallel (fun _ c => c) (fun _ => 100) (fun _ => false)
        [("A", StockOutcome.ok ⟨"A", 3⟩), ("B", StockOutcome.exn "x"),
         ("C", StockOutcome.ok ⟨"C", 7⟩)]).statistics.total_scanned :=
  market_scan_sorted_and_processed_bound (fun _ c => c) (fun _ => 100) (fun _ => false)
    [("A", StockOutcome.ok ⟨"A", 3⟩), ("B", StockOutcome.exn "x"),
     ("C", StockOutcome.ok ⟨"C", 7⟩)]
    (fun _ c => List.Perm.refl c)

/-- C1 counterexample to the claim as stated: create_task called with the
unknown task type "bogus_scan" does not fail at submission: it returns the
task id and records the task as PENDING; the unknown-type error surfaces
only afterwards, inside the background _execute_task, which marks the task
FAILED with the ValueError message. -/
theorem create_task_unknown_type_submission_succeeds :
    (TaskManager.create_task [] "task-1" "bogus_scan" [] 0).1 = "task-1" ∧
    (dictLookup "task-1" (TaskManager.create_task [] "task-1" "bogus_scan" [] 0).2).map
        MTask.status = some TaskStatus.pending ∧
    (dictLookup "task-1" (TaskManager._execute_task trivialScanEnv
        (TaskManager.create_task [] "task-1" "bogus_scan" [] 0).2 "task-1" 1)).map
        (fun t => (t.status, t.error)) =
      some (TaskStatus.failed, some "Unknown task type: bogus_scan") :=
  ⟨rfl, by decide, by decide⟩

/-- C1 (amended): TaskManager.create_task itself never raises: with an
unknown task type the submission succeeds, returning the id of a recorded
PENDING task, and the ValueError for the unknown type is raised inside the
background _execute_task, which catches it and marks the task FAILED with
the error message.  (Unknown types are rejected synchronously only by the
API layer, before create_task is reached.) -/
theorem unknown_task_type_fails_in_background (tasks : TaskMap) (id ttype : String)
    (params : List (String × String)) (now now2 : ℕ) (env : ScanEnv)
    (h : ttype ∉ ["top_picks", "sector_scan", "category_scan", "custom_scan"]) :
    (TaskManager.create_task tasks id ttype params now).1 = id ∧
    (dictLookup id (TaskManager.create_task tasks id ttype params now).2).map
        MTask.status = some TaskStatus.pending ∧
    (dictLookup id (TaskManager._execute_task env
        (TaskManager.create_task tasks id ttype params now).2 id now2)).map
        (fun t => (t.status, t.error)) =
      some (TaskStatus.failed, some ("Unknown task type: " ++ ttype)) := by
  simp only [List.mem_cons, List.not_mem_nil, or_false, not_or] at h
  obtain ⟨h1, h2, h3, h4⟩ := h
  have hlook : dictLookup id (TaskManager.create_task tasks id ttype params now).2 =
      some { task_id := id, task_type := ttype, parameters := params,
             status := TaskStatus.pending, created_at := now, started_at := none,
             completed_at := none, result := none, error := none,
             progress_message := "Đang khởi tạo tác vụ..." } :=
    dictLookup_dictInsert_self _ _ _
  refine ⟨rfl, ?_, ?_⟩
  · rw [hlook]
    rfl
  · simp only [TaskManager._execute_task, hlook, TaskManager.dispatchScan, h1, h2, h3, h4,
      ite_false, if_false]
    rw [dictLookup_dictUpdate_of_lookup _ hlook]
    rfl

/-- C1 witness for the amended theorem, at the concrete unknown type
"bogus_scan" on an empty task map. -/
theorem unknown_task_type_fails_in_background_witness :
    "bogus_scan" ∉ ["top_picks", "sector_scan", "category_scan", "custom_scan"] ∧
    ((TaskManager.create_task [] "t9" "bogus_scan" [] 3).1 = "t9" ∧
      (dictLookup "t9" (TaskManager.create_task [] "t9" "bogus_scan" [] 3).2).map
          MTask.status = some TaskStatus.pending ∧
      (dictLookup "t9" (TaskManager._execute_task trivialScanEnv
          (TaskManager.create_task [] "t9" "bogus_scan" [] 3).2 "t9" 4)).map
          (fun t => (t.status, t.error)) =
        some (TaskStatus.failed, some ("Unknown task type: " ++ "bogus_scan"))) :=
  ⟨by decide,
   unknown_task_type_fails_in_background [] "t9" "bogus_scan" [] 3 4 trivialScanEnv
     (by decide)⟩

/-- C2 counterexample to the claim as stated: a COMPLETED task created at
time 0 is queried at time 7200, more than the one-hour retention window
after its creation, with no sweep in between (the sweep only runs on its
half-hour timer); get_task_result consults no clock and still returns the
stored result. -/
theorem task_result_available_after_retention_window :
    completedOldTask.created_at + 3600 < 7200 ∧
    TaskManager.get_task_result [("t0", completedOldTask)] "t0" = some 42 :=
  ⟨by decide, by decide⟩

/-- C2 (amended): get_task_result itself performs no expiry check; what
ends availability after the one-hour window is either mechanism that does
consult the clock: the half-hourly sweep physically deletes the task, and a
get_task_status call overwrites its status with EXPIRED; after either of
these, get_task_result returns none. -/
theorem task_result_unavailable_after_status_query_or_sweep (tasks : TaskMap)
    (id : String) (t : MTask) (now : ℕ)
    (hnd : (tasks.map Prod.fst).Nodup)
    (hl : dictLookup id tasks = some t)
    (hexp : t.created_at + 3600 < now) :
    TaskManager.get_task_result (TaskManager._cleanup_expired_tasks tasks now) id = none ∧
    TaskManager.get_task_result (TaskManager.get_task_status tasks id now).2 id = none := by
  have htoo : TaskManager.taskTooOld t.created_at now = true := by
    simp only [TaskManager.taskTooOld, decide_eq_true_eq]
    omega
  constructor
  · have hnone : dictLookup id
        (tasks.filter (fun kv => !(TaskManager.taskTooOld kv.2.created_at now))) = none :=
      dictLookup_filter_eq_none hnd hl (by simp [htoo])
    unfold TaskManager.get_task_result TaskManager._cleanup_expired_tasks
    rw [hnone]
  · unfold TaskManager.get_task_status
    rw [hl]
    simp only [htoo, if_true]
    unfold TaskManager.get_task_result
    rw [dictLookup_dictUpdate_of_lookup _ hl]
    rfl

/-- C2 witness for the amended theorem: the one-task map holding the
completed task of the counterexample, queried at time 7200. -/
theorem task_result_unavailable_after_status_query_or_sweep_witness :
    ([("t0", completedOldTask)].map Prod.fst).Nodup ∧
    dictLookup "t0" [("t0", completedOldTask)] = some completedOldTask ∧
    completedOldTask.created_at + 3600 < 7200 ∧
    (TaskManager.get_task_result
        (TaskManager._cleanup_expired_tasks [("t0", completedOldTask)] 7200) "t0" = none ∧
      TaskManager.get_task_result
        (TaskManager.get_task_status [("t0", completedOldTask)] "t0" 7200).2 "t0" = none) :=
  ⟨by decide, by decide, by decide,
   task_result_unavailable_after_status_query_or_sweep [("t0", completedOldTask)] "t0"
     completedOldTask 7200 (by decide) (by decide) (by decide)⟩
